import Mathlib

/-!
Verification development for the vSphere provisioning engine
(src/adles/interfaces/vsphere_interface.py). The definitions below are a
shallow embedding of the engine: pure helpers become Lean functions, the
recursive tree walks become fuel-bounded functions producing traces of
Hypervisor Driver operations, and Python exceptions become Except values.
Network objects, folders and VMs are identified by their names; the driver
lookups (server.get_network, traverse_path and friends) are oracles passed
as Bool-valued functions.
-/

namespace Adles

/-- Class constant at source line 33, the name marker for Master objects. The
source calls it master underscore prefix; that exact name is unavailable here. -/
def master_pfx : String := "(MASTER) "

/-- Class constant at source line 34. -/
def master_root_name : String := "MASTER-FOLDERS"

/-- Modelled from the spec: zeroPad, the pad helper imported from adles.utils
(that module is not under src). Zero-pads a nonnegative value to width 2; all
call sites pass nonnegative instance counters. -/
def pad (n : Int) : String :=
  if 0 ≤ n ∧ n < 10 then "0" ++ toString n else toString n

/-- Embeds the static method at source lines 555-563: extends a Deployment
lookup path by one Master-prefixed segment. -/
def path (p name : String) : String := p ++ "/" ++ master_pfx ++ name

/-- Python exceptions the embedded code can raise. -/
inductive PyExc where
  | attributeError
  | valueError
  | typeError
  | thresholdException
  | otherError
deriving DecidableEq

/-- Value of the instances key of a node: a bare integer, or the structured
directive (source lines 576-592) with its optional fields. -/
inductive InstanceDirective where
  | intLit (n : Int)
  | structured (pfx : Option String) (number : Option Int) (sizeOfRef : Option String)
deriving DecidableEq

inductive ObjType where
  | folder
  | service
deriving DecidableEq

structure Threshold where
  warn : Int
  error : Int
deriving DecidableEq

/-- Embeds the class-level thresholds table (source lines 38-45). -/
def thresholds : ObjType → Threshold
  | .folder => ⟨25, 50⟩
  | .service => ⟨50, 70⟩

/-- Embeds the directive-resolution part of the instances handler (source lines
574-592): default count 1 with empty naming marker, bare int counts, structured
directives with number, the size-of workaround constant 1, and the malformed
case logged with count 0. -/
def resolve_num_pfx : Option InstanceDirective → Int × String
  | none => (1, "")
  | some (.intLit n) => (n, "")
  | some (.structured p number sizeOfRef) =>
    let pf := p.getD ""
    match number, sizeOfRef with
    | some n, _ => (n, pf)
    | none, some _ => (1, pf)
    | none, none => (0, pf)

/-- Names reachable through attribute lookup on a VsphereInterface object: the
class attributes (source lines 30-45) and the attributes the constructor binds
(source lines 54-129). Python resolves self.NAME through the instance dict and
the class MRO only; names held by the metaclass, such as the class name slot,
are not reachable that way. -/
def bound_attr_names : List String :=
  ["__version__", "master_prefix", "master_root_name", "thresholds",
   "_log", "spec", "metadata", "services", "networks", "folders", "infra",
   "master_folder", "template_folder", "net_table", "server", "host", "hosts",
   "groups", "server_root", "root_path", "root_name", "root_folder",
   "vswitch_name"]

/-- Evaluation of the expression self.__name__ appearing as a log argument at
source lines 597 and 602: the attribute is bound neither on the instance nor on
the class, so Python raises AttributeError while evaluating the arguments of
the log call. -/
def eval_self_dunder_name : Except PyExc Unit :=
  if "__name__" ∈ bound_attr_names then .ok () else .error .attributeError

/-- Embeds the instances handler (source lines 565-605). The object-name
argument of the source only feeds log output and is dropped. Both threshold
branches evaluate self.__name__ as a log argument before the log happens or
the raise at source line 599 is reached. -/
def instances_handler (inst : Option InstanceDirective) (ot : ObjType) :
    Except PyExc (Int × String) :=
  let np := resolve_num_pfx inst
  if (thresholds ot).error < np.1 then
    match eval_self_dunder_name with
    | .error e => .error e
    | .ok _ => .error .thresholdException
  else if (thresholds ot).warn < np.1 then
    match eval_self_dunder_name with
    | .error e => .error e
    | .ok _ => .ok np
  else .ok np

structure NetConfig where
  vlan : Option Nat
  vswitch : Option String
deriving DecidableEq

/-- The self.networks catalog: category name paired with that category's map of
network name to config, in specification order. -/
abbrev NetCatalog := List (String × List (String × NetConfig))

/-- Embeds the net-type classifier (source lines 638-649): the first category
whose key set contains the label, else the empty string after an error log. -/
def determine_net_type (netcat : NetCatalog) (label : String) : String :=
  match netcat.find? (fun cat => cat.2.any (fun kv => kv.1 == label)) with
  | some cat => cat.1
  | none => ""

/-- Yields of the VLAN generator (source lines 651-658): range(2000, 4096). -/
def get_vlan : List Nat := List.range' 2000 2096

/-- Value produced at each allocator call site. Both call sites (source lines
333 and 688) evaluate next applied to a freshly constructed generator, so every
draw is the first yield of the range. -/
def next_get_vlan : Nat := get_vlan.headD 0

/-- Hypervisor Driver calls that touch NICs or portgroups, as trace entries. -/
inductive NicOp where
  | deleteNic (nic_number : Nat)
  | addNic (network : String) (model : String) (summary : String)
  | editNic (nic_id : Nat) (network : String) (summary : String)
  | createPortgroup (name : String) (vlan : Nat) (promiscuous : Bool)
      (vswitch : String)
deriving DecidableEq

/-- True for the driver calls that mutate the NIC set of a VM. -/
def NicOp.isNicMutation : NicOp → Bool
  | .deleteNic _ => true
  | .addNic _ _ _ => true
  | .editNic _ _ _ => true
  | .createPortgroup _ _ _ _ => false

/-- Portgroup-creation trace entries. -/
def NicOp.isCreation : NicOp → Bool
  | .createPortgroup _ _ _ _ => true
  | _ => false

/-- Embeds the vswitch choice at source line 686 for a generic network; at the
call site the name is already classified generic, so the fallbacks for a
missing category or config are unreachable. -/
def generic_vswitch (netcat : NetCatalog) (vswitch_name name : String) : String :=
  match ((netcat.lookup "generic-networks").getD []).lookup name with
  | some cfg => cfg.vswitch.getD vswitch_name
  | none => vswitch_name

/-- Embeds the network resolver (source lines 660-693). State is the net_table
list of registered names plus the trace of driver creation calls; sx is the
server.get_network existence oracle. -/
def get_net (netcat : NetCatalog) (sx : String → Bool) (vswitch_name : String)
    (tbl : List String) (ops : List NicOp) (name : String) (inst : Int) :
    Except PyExc (List String × List NicOp × String) :=
  let net_type := determine_net_type netcat name
  if net_type = "unique-networks" then .ok (tbl, ops, name)
  else if net_type = "generic-networks" then
    if inst = -1 then .error .valueError
    else
      let net_name := name ++ "-GENERIC-" ++ pad inst
      if net_name ∈ tbl then .ok (tbl, ops, net_name)
      else
        let ops1 :=
          if sx net_name then ops
          else ops ++ [.createPortgroup net_name next_get_vlan false
            (generic_vswitch netcat vswitch_name name)]
        .ok (tbl ++ [net_name], ops1, net_name)
  else .error .typeError

/-- Pure name part of network resolution: the resolved name the resolver
returns, and the identity when the NIC walk runs without an instance
(source line 372 guards the resolver call on the instance argument). -/
def resolve_net_name (netcat : NetCatalog) (io : Option Int) (name : String) :
    Except PyExc String :=
  match io with
  | none => .ok name
  | some i =>
    let net_type := determine_net_type netcat name
    if net_type = "unique-networks" then .ok name
    else if net_type = "generic-networks" then
      if i = -1 then .error .valueError
      else .ok (name ++ "-GENERIC-" ++ pad i)
    else .error .typeError

/-- One virtual NIC: its backing network object and its display summary, with
network objects identified by their server name. -/
structure Nic where
  backing : String
  summary : String
deriving DecidableEq

/-- Per-slot resolution step of the NIC edit walk (source lines 372-373):
generic resolution runs only when an instance was passed. -/
def resolve_step (netcat : NetCatalog) (sx : String → Bool) (vswitch_name : String)
    (io : Option Int) (tbl : List String) (ops : List NicOp) (name : String) :
    Except PyExc (List String × List NicOp × String) :=
  match io with
  | none => .ok (tbl, ops, name)
  | some i => get_net netcat sx vswitch_name tbl ops name i

/-- Embeds the NIC-adding branch (source lines 356-363): diff iterations, each
popping the last element of the networks list - which the local nets name
aliases - and adding a NIC backed by that network with the summary set to the
name. The empty-list fallback is unreachable because diff never exceeds the
list length. -/
def add_loop (tools : Bool) : Nat → List Nic → List String →
    List Nic × List String × List NicOp
  | 0, nics, nets => (nics, nets, [])
  | Nat.succ d, nics, nets =>
    match nets.getLast? with
    | none => (nics, nets, [])
    | some net_name =>
      let model := if tools then "vmxnet3" else "e1000"
      let r := add_loop tools d (nics ++ [⟨net_name, net_name⟩]) nets.dropLast
      (r.1, r.2.1, .addNic net_name model net_name :: r.2.2)

/-- Embeds the NIC edit walk (source lines 369-378), with the 0-based slot index
k standing for the 1-based nic id k+1 of the source. A slot whose backing
already equals the resolved network is skipped; otherwise the edit driver call
is recorded and the backing and summary move to the resolved network. -/
def edit_loop (netcat : NetCatalog) (sx : String → Bool) (vswitch_name : String)
    (io : Option Int) : List String → Nat → List Nic → List String → List NicOp →
    Except PyExc (List Nic × List String × List NicOp)
  | [], _, nics, tbl, ops => .ok (nics, tbl, ops)
  | net_name :: rest, k, nics, tbl, ops =>
    match resolve_step netcat sx vswitch_name io tbl ops net_name with
    | .error e => .error e
    | .ok (tbl1, ops1, resolved) =>
      match nics.get? k with
      | none => .error .otherError
      | some nic =>
        if nic.backing = resolved then
          edit_loop netcat sx vswitch_name io rest (k + 1) nics tbl1 ops1
        else
          edit_loop netcat sx vswitch_name io rest (k + 1)
            (nics.set k ⟨resolved, resolved⟩) tbl1
            (ops1 ++ [.editNic (k + 1) resolved resolved])

structure CNResult where
  nics : List Nic
  networks : List String
  net_table : List String
  ops : List NicOp
deriving DecidableEq

/-- Embeds the NIC reconciler (source lines 336-378). The networks parameter
and the local nets are one and the same list object in the source - the
assignment at line 346 aliases rather than copies - so the pops of the adding
branch shrink the callers list and the recomputed num_nets at line 364 counts
the shrunk list; the networks field of the result is that list after the call.
The effect of the delete and add driver calls on the NIC set follows the
driver contract of the spec: deletes drop the highest-indexed NICs, adds
append NICs backed by the named network. -/
def configure_nics (netcat : NetCatalog) (sx : String → Bool)
    (vswitch_name : String) (tools : Bool) (io : Option Int) (nics0 : List Nic)
    (networks0 : List String) (tbl0 : List String) : Except PyExc CNResult :=
  let num_nics := nics0.length
  let num_nets := networks0.length
  let step :=
    if num_nets < num_nics then
      (nics0.take num_nets, networks0,
        ((List.range num_nics).reverse.take (num_nics - num_nets)).map
          NicOp.deleteNic)
    else if num_nics < num_nets then
      add_loop tools (num_nets - num_nics) nics0 networks0
    else (nics0, networks0, ([] : List NicOp))
  match edit_loop netcat sx vswitch_name io step.2.1 0 step.1 tbl0 step.2.2 with
  | .error e => .error e
  | .ok (nics2, tbl2, ops2) => .ok ⟨nics2, step.2.1, tbl2, ops2⟩

structure ServiceDef where
  template : Option String
  note : Option String
deriving DecidableEq

structure ServiceSpec where
  service : String
  networks : List String
  instances : Option InstanceDirective
deriving DecidableEq

abbrev Services := List (String × ServiceDef)

/-- Embeds the service-type check (source lines 625-636): a name absent from
the services catalog logs an error and falls through to returning false; a
known service is a vsphere one iff its definition has a template key. -/
def is_vsphere (services : Services) (service_name : String) : Bool :=
  match services.lookup service_name with
  | none => false
  | some cfg => cfg.template.isSome

/-- Specification folder node: the reserved control keys the walkers read
(enabled, instances), the non-reserved entries that are sub-folders in
iteration order, and the services key whose presence makes the node a base
folder. The group and master-group keys only feed permission bookkeeping the
source never applies and are omitted. -/
inductive FolderSpec where
  | node (enabled : Option Bool) (instances : Option InstanceDirective)
      (children : List (String × FolderSpec))
      (services : Option (List (String × ServiceSpec)))

def FolderSpec.enabled : FolderSpec → Option Bool
  | .node e _ _ _ => e

def FolderSpec.instances : FolderSpec → Option InstanceDirective
  | .node _ i _ _ => i

def FolderSpec.children : FolderSpec → List (String × FolderSpec)
  | .node _ _ c _ => c

def FolderSpec.services : FolderSpec → Option (List (String × ServiceSpec))
  | .node _ _ _ s => s

/-- Embeds the enabled check (source lines 695-704): the enabled key when
present, defaulting to true. -/
def is_enabled (e : Option Bool) : Bool := e.getD true

/-- Hypervisor Driver operations of the Master generation walk. -/
inductive MOp where
  | createFolder (name : String) (parent : String)
  | cloneVM (name : String) (parent : String)
  | configNics (vm : String) (networks : List String)
  | snapshot (vm : String) (label : String)
deriving DecidableEq

/-- Embeds the service cloner (source lines 275-312): skip non-vsphere
services, look up the template (tex oracle on the template name), record the
clone call, then re-find the clone (vmf oracle); returns the trace and whether
a vm object was obtained. -/
def clone_service (catalog : Services) (tex vmf : String → Bool)
    (parent service_name : String) : List MOp × Bool :=
  if is_vsphere catalog service_name then
    match catalog.lookup service_name with
    | none => ([], false)
    | some cfg =>
      match cfg.template with
      | none => ([], false)
      | some tmpl =>
        if tex tmpl then
          ([MOp.cloneVM (master_pfx ++ service_name) parent],
            vmf (master_pfx ++ service_name))
        else ([], false)
  else ([], false)

/-- Embeds the Master base-folder generator (source lines 239-273): walk the
services of the folder, skipping non-vsphere ones; a successful clone is
NIC-configured against its declared networks and snapshotted, a failed clone is
logged and its siblings proceed. -/
def master_base_folder_gen (catalog : Services) (tex vmf : String → Bool)
    (svcs : List (String × ServiceSpec)) (parent : String) : List MOp :=
  svcs.flatMap fun sv =>
    if is_vsphere catalog sv.2.service then
      let r := clone_service catalog tex vmf parent sv.2.service
      r.1 ++
        (if r.2 then
          [MOp.configNics (master_pfx ++ sv.2.service) sv.2.networks,
            MOp.snapshot (master_pfx ++ sv.2.service)
              "initial mastering snapshot"]
        else [])
    else []

/-- Embeds the Master parent-folder generator (source lines 196-237). The guard
at source line 203 runs the return when the enabled check is TRUE - the branch
is not negated there, although its log line reads Skipping disabled
parent-type folder - so the walk returns for enabled nodes and proceeds for
disabled ones. Fuel bounds the recursion depth. -/
def master_parent_folder_gen (catalog : Services) (tex vmf : String → Bool) :
    Nat → FolderSpec → String → List MOp
  | 0, _, _ => []
  | Nat.succ fuel, folder, parentName =>
    if is_enabled folder.enabled then []
    else
      folder.children.flatMap fun sub =>
        let fname := master_pfx ++ sub.1
        MOp.createFolder fname parentName ::
          (match sub.2.services with
           | some svcs =>
             if is_enabled sub.2.enabled then
               master_base_folder_gen catalog tex vmf svcs fname
             else []
           | none =>
             if is_enabled sub.2.enabled then
               master_parent_folder_gen catalog tex vmf fuel sub.2 fname
             else [])

/-- Hypervisor Driver operations of the Deployment walk. -/
inductive DOp where
  | createFolder (name : String) (parent : String)
  | masterLookup (p : String)
  | cloneVM (name : String) (parent : String)
  | configNics (vm : String) (networks : List String) (inst : Nat)
deriving DecidableEq

/-- Sequences effectful steps, concatenating their traces; an exception in any
step aborts the whole walk, as an uncaught Python exception would. -/
def exceptFlat : List α → (α → Except PyExc (List β)) → Except PyExc (List β)
  | [], _ => .ok []
  | x :: xs, f =>
    match f x with
    | .error e => .error e
    | .ok ys =>
      match exceptFlat xs f with
      | .error e => .error e
      | .ok zs => .ok (ys ++ zs)

/-- Embeds the Deployment service generator (source lines 518-554); mex is the
traverse_path oracle under the Master root and vmf the clone re-find oracle. A
failed Master lookup logs and skips the service, siblings proceed. -/
def deploy_gen_services (catalog : Services) (mex vmf : String → Bool)
    (svcs : List (String × ServiceSpec)) (parent p : String) (inst : Nat) :
    Except PyExc (List DOp) :=
  exceptFlat svcs fun sv =>
    if is_vsphere catalog sv.2.service then
      match instances_handler sv.2.instances .service with
      | .error e => .error e
      | .ok np =>
        let lp := path p sv.2.service
        if mex lp then
          .ok (DOp.masterLookup lp ::
            (List.range np.1.toNat).flatMap fun i =>
              let iname := np.2 ++ sv.1 ++ (if 1 < np.1 then " " ++ pad i else "")
              DOp.cloneVM iname parent ::
                (if vmf iname then [DOp.configNics iname sv.2.networks inst]
                 else []))
        else .ok [DOp.masterLookup lp]
    else .ok []

/-- Embeds the Deployment base-folder generator (source lines 485-516): the
count and naming marker come from the own dict of the base folder; a separate
instance folder is created only when more than one instance is generated; the
services path is extended with the folder name again at source line 516. -/
def deploy_base_folder_gen (catalog : Services) (mex vmf : String → Bool)
    (folder_name : String) (folder_items : FolderSpec)
    (svcs : List (String × ServiceSpec)) (parent p : String) :
    Except PyExc (List DOp) :=
  match instances_handler folder_items.instances .folder with
  | .error e => .error e
  | .ok np =>
    exceptFlat (List.range np.1.toNat) fun i =>
      let iname := (if np.2 = "" ∨ np.1 = 1 then folder_name else np.2) ++
        (if 1 < np.1 then pad i else "")
      let newParent := if 1 < np.1 then iname else parent
      match deploy_gen_services catalog mex vmf svcs newParent
          (path p folder_name) i with
      | .error e => .error e
      | .ok sops =>
        .ok ((if 1 < np.1 then [DOp.createFolder iname parent] else []) ++ sops)

/-- Embeds the Deployment parent-folder generator (source lines 441-483). The
count and naming marker for the instance folders of every child come from the
handler applied to the node itself - the spec argument at source line 460 -
and the path handed to a base-type child is already extended with the child
name at source line 475. Fuel bounds the recursion depth. -/
def deploy_parent_folder_gen (catalog : Services) (mex vmf : String → Bool) :
    Nat → FolderSpec → String → String → Except PyExc (List DOp)
  | 0, _, _, _ => .ok []
  | Nat.succ fuel, spec, parent, p =>
    if is_enabled spec.enabled then
      exceptFlat spec.children fun sub =>
        match instances_handler spec.instances .folder with
        | .error e => .error e
        | .ok np =>
          exceptFlat (List.range np.1.toNat) fun i =>
            let iname := (if np.2 = "" ∨ np.1 = 1 then sub.1 else np.2) ++
              (if 1 < np.1 then pad i else "")
            match sub.2.services with
            | some svcs =>
              if is_enabled sub.2.enabled then
                match deploy_base_folder_gen catalog mex vmf sub.1 sub.2 svcs
                    iname (path p sub.1) with
                | .error e => .error e
                | .ok ops => .ok (DOp.createFolder iname parent :: ops)
              else .ok [DOp.createFolder iname parent]
            | none =>
              if is_enabled sub.2.enabled then
                match deploy_parent_folder_gen catalog mex vmf fuel sub.2 iname
                    (path p sub.1) with
                | .error e => .error e
                | .ok ops => .ok (DOp.createFolder iname parent :: ops)
              else .ok [DOp.createFolder iname parent]
    else .ok []

/-- Path under the Master root at which Master mode creates the Master VM of a
service: source lines 219-220 name each folder level with the Master marker
and source line 289 names the VM the same way; written with the separator
convention of the path helper, starting from the empty path. -/
def master_creation_path (ancestors : List String) (base svc : String) :
    String :=
  path (path (ancestors.foldl path "") base) svc

/-- Embeds the Master network creation pass (source lines 314-334) over one
category dict: existing portgroups are logged, missing ones are created when
default_create holds, with promiscuous false, the configured vlan or an
allocator draw, and the configured or default vswitch. -/
def create_master_networks (cat : List (String × NetConfig))
    (sx : String → Bool) (default_create : Bool) (vswitch_name : String) :
    List NicOp :=
  cat.flatMap fun nc =>
    if sx nc.1 then []
    else if default_create then
      [NicOp.createPortgroup nc.1 (nc.2.vlan.getD next_get_vlan) false
        (nc.2.vswitch.getD vswitch_name)]
    else []

end Adles

namespace Adles

/-- Claim C2: the enabled guard of the Master walk is inverted. The guard at
source line 203 reads if self._is_enabled(folder): return, so a parent node
with enabled true, or with the key absent, makes the walker return without a
single driver call, while a node with enabled false is processed and its child
folder is created. The claim states the opposite behavior. -/
theorem c2_master_enabled_guard_inverted :
    master_parent_folder_gen [] (fun _ => false) (fun _ => false) 3
      (.node (some true) none [("A", .node none none [] none)] none)
      "MASTER-FOLDERS" = [] ∧
    master_parent_folder_gen [] (fun _ => false) (fun _ => false) 3
      (.node none none [("A", .node none none [] none)] none)
      "MASTER-FOLDERS" = [] ∧
    master_parent_folder_gen [] (fun _ => false) (fun _ => false) 3
      (.node (some false) none [("A", .node none none [] none)] none)
      "MASTER-FOLDERS" =
      [MOp.createFolder "(MASTER) A" "MASTER-FOLDERS"] := by
  exact ⟨rfl, rfl, rfl⟩

/-- Claim C1: the Master lookup path built during Deployment duplicates the
base-folder segment - source line 475 already extends the path with the child
name and source line 516 extends it with the same folder name once more - so
the lookup string differs from the path at which Master mode creates the
service VM. Evaluated at a top-level base folder Team holding service web. -/
theorem c1_deploy_lookup_path_mismatch :
    deploy_parent_folder_gen [("web", ⟨some "web-tmpl", none⟩)] (fun _ => true)
      (fun _ => true) 3
      (.node none none
        [("Team", .node none none []
          (some [("web", ⟨"web", ["net1"], none⟩)]))] none) "root" "" =
      .ok [DOp.createFolder "Team" "root",
        DOp.masterLookup "/(MASTER) Team/(MASTER) Team/(MASTER) web",
        DOp.cloneVM "web" "Team",
        DOp.configNics "web" ["net1"] 0] ∧
    master_creation_path [] "Team" "web" = "/(MASTER) Team/(MASTER) web" ∧
    ("/(MASTER) Team/(MASTER) Team/(MASTER) web" : String) ≠
      "/(MASTER) Team/(MASTER) web" := by
  exact ⟨rfl, rfl, by decide⟩

/-- Claim C3: both allocator call sites evaluate next on a freshly built
generator, so every allocator-backed creation receives VLAN 2000: two networks
created in one Master networks pass both get tag 2000 instead of distinct
increasing tags. -/
theorem c3_vlan_draws_all_2000 :
    next_get_vlan = 2000 ∧
    create_master_networks [("neta", ⟨none, none⟩), ("netb", ⟨none, none⟩)]
      (fun _ => false) true "vs0" =
      [NicOp.createPortgroup "neta" 2000 false "vs0",
       NicOp.createPortgroup "netb" 2000 false "vs0"] := by
  exact ⟨rfl, rfl⟩

/-- Claim C5: counts up to the warn threshold resolve cleanly, but a count in
the warn band or above the error threshold makes the handler raise
AttributeError while evaluating self.__name__ in the log-call arguments, so
the warn band aborts instead of warning and the fatal case aborts before the
message naming the object and threshold is produced. -/
theorem c5_threshold_warn_band_raises :
    instances_handler (some (.intLit 25)) .folder = .ok (25, "") ∧
    instances_handler (some (.intLit 30)) .folder = .error .attributeError ∧
    instances_handler (some (.intLit 51)) .folder = .error .attributeError ∧
    instances_handler (some (.intLit 60)) .service = .error .attributeError := by
  exact ⟨rfl, rfl, rfl, rfl⟩

/-- Claim C9: the assignment nets = networks at source line 346 aliases the
declared list of the specification instead of copying it, so adding NICs pops
entries off the callers list: after reconciling a one-NIC VM against two
declared networks, the declared list holds one name instead of two. -/
theorem c9_declared_networks_mutated :
    configure_nics [] (fun _ => false) "vs0" false none [⟨"a", "a"⟩]
      ["a", "b"] [] =
      .ok ⟨[⟨"a", "a"⟩, ⟨"b", "b"⟩], ["a"], [],
        [NicOp.addNic "b" "e1000" "b"]⟩ ∧
    (["a"] : List String) ≠ ["a", "b"] := by
  exact ⟨rfl, by decide⟩

/-- Claim C6 counterexample: reconciling a zero-NIC VM against one declared
generic network adds the NIC with the raw name and then walks nothing, because
the pop shrank the aliased list to empty; slot 1 is never resolved to the
generic per-instance name, refuting the claim that every slot 1..target is
walked with resolution. -/
theorem c6_added_slot_not_walked :
    configure_nics [("generic-networks", [("lan", ⟨none, none⟩)])]
      (fun _ => false) "vs0" false (some 0) [] ["lan"] [] =
      .ok ⟨[⟨"lan", "lan"⟩], [], [], [NicOp.addNic "lan" "e1000" "lan"]⟩ ∧
    resolve_net_name [("generic-networks", [("lan", ⟨none, none⟩)])] (some 0)
      "lan" = .ok "lan-GENERIC-00" ∧
    ("lan" : String) ≠ "lan-GENERIC-00" := by
  exact ⟨rfl, rfl, by decide⟩

/-- Claim C4 counterexample: a parent node with a bare count 2 whose only child
carries its own count 3 yields two instance folders for the child, not three:
source line 460 hands the parent dict, not the child dict, to the handler. -/
theorem c4_child_directive_not_used :
    deploy_parent_folder_gen [] (fun _ => true) (fun _ => true) 3
      (.node none (some (.intLit 2))
        [("A", .node none (some (.intLit 3)) [] none)] none) "root" "" =
      .ok [DOp.createFolder "A00" "root", DOp.createFolder "A01" "root"] ∧
    instances_handler (some (.intLit 3)) .folder = .ok (3, "") ∧
    (2 : Nat) ≠ 3 := by
  exact ⟨rfl, rfl, by decide⟩

end Adles

namespace Adles

/-- Congruence for exceptFlat over pointwise equal step functions. -/
theorem exceptFlat_congr {α β : Type} {f g : α → Except PyExc (List β)}
    (xs : List α) (h : ∀ x ∈ xs, f x = g x) :
    exceptFlat xs f = exceptFlat xs g := by
  induction xs with
  | nil => rfl
  | cons x xs ih =>
    simp only [exceptFlat]
    rw [h x (by simp), ih (fun y hy => h y (by simp [hy]))]

/-- A walk whose every step succeeds flattens to the concatenation of the
per-step traces. -/
theorem exceptFlat_ok {α β : Type} (xs : List α) (g : α → List β) :
    exceptFlat xs (fun x => Except.ok (g x)) = .ok (xs.flatMap g) := by
  induction xs with
  | nil => rfl
  | cons x xs ih => simp only [exceptFlat, ih, List.flatMap_cons]

/-- A step that succeeds with an empty trace leaves the walk of its siblings
unchanged. -/
theorem exceptFlat_skip {α β : Type} (f : α → Except PyExc (List β))
    (xs ys : List α) (b : α) (hb : f b = .ok []) :
    exceptFlat (xs ++ b :: ys) f = exceptFlat (xs ++ ys) f := by
  induction xs with
  | nil =>
    simp only [List.nil_append, exceptFlat, hb]
    cases h : exceptFlat ys f <;> simp
  | cons x xs ih =>
    simp only [List.cons_append, exceptFlat, List.append_eq, ih]

/-- Claim C10: a service reference naming no catalog entry makes the type check
return false - it logs and falls through rather than raising - and both the
Master base-folder walk and the Deployment service walk produce exactly the
trace of the sibling services around it: the unknown service is skipped and
the rest of the run continues. -/
theorem c10_unknown_service_skipped (catalog : Services)
    (tex vmf mex vmf2 : String → Bool) (bname svc : String)
    (bnets : List String) (binst : Option InstanceDirective)
    (s1 s2 : List (String × ServiceSpec)) (parentM parentD p : String)
    (inst : Nat) (h : catalog.lookup svc = none) :
    is_vsphere catalog svc = false ∧
    master_base_folder_gen catalog tex vmf
        (s1 ++ (bname, ⟨svc, bnets, binst⟩) :: s2) parentM =
      master_base_folder_gen catalog tex vmf (s1 ++ s2) parentM ∧
    deploy_gen_services catalog mex vmf2
        (s1 ++ (bname, ⟨svc, bnets, binst⟩) :: s2) parentD p inst =
      deploy_gen_services catalog mex vmf2 (s1 ++ s2) parentD p inst := by
  have hv : is_vsphere catalog svc = false := by
    simp [is_vsphere, h]
  refine ⟨hv, ?_, ?_⟩
  · simp only [master_base_folder_gen, List.flatMap_append, List.flatMap_cons,
      hv, Bool.false_eq_true, if_false, List.nil_append]
  · unfold deploy_gen_services
    exact exceptFlat_skip _ s1 s2 _ (by simp [hv])

/-- Claim C10 witness at a concrete catalog and service lists. -/
theorem c10_unknown_service_skipped_witness :
    (([("web", (⟨some "web-tmpl", none⟩ : ServiceDef))]).lookup "ghost"
      = none) ∧
    (is_vsphere [("web", ⟨some "web-tmpl", none⟩)] "ghost" = false ∧
     master_base_folder_gen [("web", ⟨some "web-tmpl", none⟩)] (fun _ => true)
        (fun _ => true)
        ([("a", ⟨"web", [], none⟩)] ++
          ("bad", ⟨"ghost", [], none⟩) :: [("b", ⟨"web", [], none⟩)]) "f" =
      master_base_folder_gen [("web", ⟨some "web-tmpl", none⟩)] (fun _ => true)
        (fun _ => true)
        ([("a", ⟨"web", [], none⟩)] ++ [("b", ⟨"web", [], none⟩)]) "f" ∧
     deploy_gen_services [("web", ⟨some "web-tmpl", none⟩)] (fun _ => true)
        (fun _ => true)
        ([("a", ⟨"web", [], none⟩)] ++
          ("bad", ⟨"ghost", [], none⟩) :: [("b", ⟨"web", [], none⟩)]) "g" "/p"
        4 =
      deploy_gen_services [("web", ⟨some "web-tmpl", none⟩)] (fun _ => true)
        (fun _ => true)
        ([("a", ⟨"web", [], none⟩)] ++ [("b", ⟨"web", [], none⟩)]) "g" "/p"
        4) :=
  ⟨rfl, c10_unknown_service_skipped _ _ _ _ _ "bad" "ghost" [] none _ _ _ _ _ _
    rfl⟩

end Adles

namespace Adles

/-- A successful pure resolution makes the per-slot resolution step succeed
with the same name, adding no NIC-mutating driver call and dropping no
net_table entry. -/
theorem resolve_step_ok (netcat : NetCatalog) (sx : String → Bool)
    (vsw : String) (io : Option Int) (tbl : List String) (ops : List NicOp)
    (name r : String) (hr : resolve_net_name netcat io name = .ok r) :
    ∃ tbl1 ops1, resolve_step netcat sx vsw io tbl ops name =
        .ok (tbl1, ops1, r) ∧
      ops1.filter NicOp.isNicMutation = ops.filter NicOp.isNicMutation ∧
      ∀ e ∈ tbl, e ∈ tbl1 := by
  cases io with
  | none =>
    simp only [resolve_net_name] at hr
    injection hr with h
    subst h
    exact ⟨tbl, ops, rfl, rfl, fun e he => he⟩
  | some i =>
    simp only [resolve_net_name] at hr
    simp only [resolve_step, get_net]
    by_cases hu : determine_net_type netcat name = "unique-networks"
    · rw [if_pos hu] at hr ⊢
      injection hr with h
      subst h
      exact ⟨tbl, ops, rfl, rfl, fun e he => he⟩
    · rw [if_neg hu] at hr ⊢
      by_cases hg : determine_net_type netcat name = "generic-networks"
      · rw [if_pos hg] at hr ⊢
        by_cases hi : i = -1
        · rw [if_pos hi] at hr
          exact absurd hr (by simp)
        · rw [if_neg hi] at hr ⊢
          injection hr with h
          subst h
          by_cases hmem : name ++ "-GENERIC-" ++ pad i ∈ tbl
          · rw [if_pos hmem]
            exact ⟨tbl, ops, rfl, rfl, fun e he => he⟩
          · rw [if_neg hmem]
            refine ⟨tbl ++ [name ++ "-GENERIC-" ++ pad i], _, rfl, ?_, ?_⟩
            · by_cases hsx : sx (name ++ "-GENERIC-" ++ pad i)
              · rw [if_pos hsx]
              · rw [if_neg hsx]
                simp [List.filter_append, NicOp.isNicMutation]
            · exact fun e he => List.mem_append_left _ he
      · rw [if_neg hg] at hr
        exact absurd hr (by simp)

/-- The NIC edit walk over slots whose backing already equals the resolved
network leaves the NIC list untouched and adds no NIC-mutating driver call. -/
theorem edit_loop_all_match (netcat : NetCatalog) (sx : String → Bool)
    (vsw : String) (io : Option Int) :
    ∀ (nets : List String) (k : Nat) (nics : List Nic) (tbl : List String)
      (ops : List NicOp),
      (∀ j, j < nets.length → ∃ nm r, nets.get? j = some nm ∧
        resolve_net_name netcat io nm = .ok r ∧
        (nics.get? (k + j)).map Nic.backing = some r) →
      ∃ tbl1 ops1,
        edit_loop netcat sx vsw io nets k nics tbl ops =
          .ok (nics, tbl1, ops1) ∧
        ops1.filter NicOp.isNicMutation = ops.filter NicOp.isNicMutation := by
  intro nets
  induction nets with
  | nil => exact fun k nics tbl ops _ => ⟨tbl, ops, rfl, rfl⟩
  | cons net_name rest ih =>
    intro k nics tbl ops hm
    obtain ⟨nm, r, hnm, hres, hback⟩ := hm 0 (by simp)
    simp only [List.get?_cons_zero, Option.some.injEq] at hnm
    subst hnm
    simp only [Nat.add_zero] at hback
    cases hnic : nics.get? k with
    | none => rw [hnic] at hback; simp at hback
    | some nic =>
      rw [hnic] at hback
      simp only [Option.map_some', Option.some.injEq] at hback
      obtain ⟨tbl1, ops1, hstep, hfil, _⟩ :=
        resolve_step_ok netcat sx vsw io tbl ops net_name r hres
      have hshift : ∀ j, j < rest.length → ∃ nm2 r2,
          rest.get? j = some nm2 ∧
          resolve_net_name netcat io nm2 = .ok r2 ∧
          (nics.get? (k + 1 + j)).map Nic.backing = some r2 := by
        intro j hj
        obtain ⟨nm2, r2, h1, h2, h3⟩ := hm (j + 1) (by simp; omega)
        simp only [List.get?_cons_succ] at h1
        rw [show k + (j + 1) = k + 1 + j by omega] at h3
        exact ⟨nm2, r2, h1, h2, h3⟩
      obtain ⟨tbl2, ops2, hrun, hfil2⟩ := ih (k + 1) nics tbl1 ops1 hshift
      refine ⟨tbl2, ops2, ?_, hfil2.trans hfil⟩
      simp only [edit_loop, hstep, hnic]
      rw [if_pos hback]
      exact hrun

/-- When the NIC count already matches the declared count, the reconciler is
the edit walk with an empty starting trace over the unchanged lists. -/
theorem configure_nics_eq_len (netcat : NetCatalog) (sx : String → Bool)
    (vsw : String) (tools : Bool) (io : Option Int) (nics0 : List Nic)
    (networks0 : List String) (tbl0 : List String)
    (hlen : nics0.length = networks0.length) :
    configure_nics netcat sx vsw tools io nics0 networks0 tbl0 =
      match edit_loop netcat sx vsw io networks0 0 nics0 tbl0 [] with
      | .error e => .error e
      | .ok (nics2, tbl2, ops2) => .ok ⟨nics2, networks0, tbl2, ops2⟩ := by
  simp only [configure_nics]
  rw [if_neg (by omega : ¬ networks0.length < nics0.length),
    if_neg (by omega : ¬ nics0.length < networks0.length)]

/-- Claim C8: reconciling a VM whose NIC count equals the declared count and
whose every slot already points at its resolved network performs no add,
delete or edit driver call and leaves the NIC list and the declared list as
they were. -/
theorem c8_reconcile_idempotent (netcat : NetCatalog) (sx : String → Bool)
    (vsw : String) (tools : Bool) (io : Option Int) (nics : List Nic)
    (networks : List String) (tbl : List String)
    (hlen : nics.length = networks.length)
    (hm : ∀ j, j < networks.length → ∃ nm r, networks.get? j = some nm ∧
      resolve_net_name netcat io nm = .ok r ∧
      (nics.get? j).map Nic.backing = some r) :
    ∃ st, configure_nics netcat sx vsw tools io nics networks tbl = .ok st ∧
      st.nics = nics ∧ st.networks = networks ∧
      st.ops.filter NicOp.isNicMutation = [] := by
  obtain ⟨tbl1, ops1, hrun, hfil⟩ :=
    edit_loop_all_match netcat sx vsw io networks 0 nics tbl []
      (by intro j hj
          obtain ⟨nm, r, h1, h2, h3⟩ := hm j hj
          exact ⟨nm, r, h1, h2, by simpa using h3⟩)
  refine ⟨⟨nics, networks, tbl1, ops1⟩, ?_, rfl, rfl, ?_⟩
  · rw [configure_nics_eq_len netcat sx vsw tools io nics networks tbl hlen,
      hrun]
  · simpa using hfil

/-- Claim C8 witness: a one-NIC VM already matching its declared unique
network, reconciled in deployment mode. -/
theorem c8_reconcile_idempotent_witness :
    ([⟨"u", "u"⟩] : List Nic).length = (["u"] : List String).length ∧
    (∃ st, configure_nics [("unique-networks", [("u", ⟨none, none⟩)])]
        (fun _ => false) "vs0" false (some 0) [⟨"u", "u"⟩] ["u"] [] =
        .ok st ∧
      st.nics = [⟨"u", "u"⟩] ∧ st.networks = ["u"] ∧
      st.ops.filter NicOp.isNicMutation = []) := by
  refine ⟨rfl, ?_⟩
  refine c8_reconcile_idempotent _ _ _ _ _ _ _ _ rfl ?_
  intro j hj
  have hj1 : j < 1 := by simpa using hj
  have hj0 : j = 0 := by omega
  subst hj0
  exact ⟨"u", "u", rfl, rfl, rfl⟩

end Adles

namespace Adles

/-- Claim C7: generic resolution is deterministic and lazily creates at most
once. With the name classified generic and a nonnegative instance, the first
resolver call returns the zero-padded concrete name, registers it in the
net_table whether it pre-existed on the server or was created, and records at
most one creation; a second call with the same arguments returns the same name
from the same state with no further driver call; no net_table entry is
dropped. -/
theorem c7_generic_resolution_once (netcat : NetCatalog) (sx : String → Bool)
    (vsw : String) (tbl0 : List String) (ops0 : List NicOp) (g : String)
    (i : Int) (hg : determine_net_type netcat g = "generic-networks")
    (hi : 0 ≤ i) :
    ∃ tbl1 ops1,
      get_net netcat sx vsw tbl0 ops0 g i =
        .ok (tbl1, ops1, g ++ "-GENERIC-" ++ pad i) ∧
      get_net netcat sx vsw tbl1 ops1 g i =
        .ok (tbl1, ops1, g ++ "-GENERIC-" ++ pad i) ∧
      (g ++ "-GENERIC-" ++ pad i) ∈ tbl1 ∧
      (∀ e ∈ tbl0, e ∈ tbl1) ∧
      (ops1.filter NicOp.isCreation).length ≤
        (ops0.filter NicOp.isCreation).length + 1 := by
  have hi1 : ¬ i = -1 := by omega
  by_cases hmem : (g ++ "-GENERIC-" ++ pad i) ∈ tbl0
  · refine ⟨tbl0, ops0, ?_, ?_, hmem, fun e he => he, by omega⟩ <;>
    · simp only [get_net, hg, if_true]
      rw [if_neg hi1, if_pos hmem,
        if_neg (show ¬("generic-networks" = "unique-networks") by decide)]
  · have hmem1 : (g ++ "-GENERIC-" ++ pad i) ∈
        tbl0 ++ [g ++ "-GENERIC-" ++ pad i] :=
      List.mem_append_right _ (List.mem_singleton_self _)
    refine ⟨tbl0 ++ [g ++ "-GENERIC-" ++ pad i],
      (if sx (g ++ "-GENERIC-" ++ pad i) then ops0
       else ops0 ++ [.createPortgroup (g ++ "-GENERIC-" ++ pad i)
         next_get_vlan false (generic_vswitch netcat vsw g)]),
      ?_, ?_, hmem1, fun e he => List.mem_append_left _ he, ?_⟩
    · simp only [get_net, hg, if_true]
      rw [if_neg hi1, if_neg hmem,
        if_neg (show ¬("generic-networks" = "unique-networks") by decide)]
    · simp only [get_net, hg, if_true]
      rw [if_neg hi1, if_pos hmem1,
        if_neg (show ¬("generic-networks" = "unique-networks") by decide)]
    · by_cases hsx : sx (g ++ "-GENERIC-" ++ pad i)
      · rw [if_pos hsx]; omega
      · rw [if_neg hsx]
        simp [List.filter_append, NicOp.isCreation]

/-- Claim C7 witness: a generic network lan at instance 0 with an empty
net_table and a server that has no portgroups. -/
theorem c7_generic_resolution_once_witness :
    determine_net_type [("generic-networks", [("lan", ⟨none, none⟩)])] "lan" =
      "generic-networks" ∧
    (0 : Int) ≤ 0 ∧
    (∃ tbl1 ops1,
      get_net [("generic-networks", [("lan", ⟨none, none⟩)])] (fun _ => false)
          "vs0" [] [] "lan" 0 =
        .ok (tbl1, ops1, "lan" ++ "-GENERIC-" ++ pad 0) ∧
      get_net [("generic-networks", [("lan", ⟨none, none⟩)])] (fun _ => false)
          "vs0" tbl1 ops1 "lan" 0 =
        .ok (tbl1, ops1, "lan" ++ "-GENERIC-" ++ pad 0) ∧
      ("lan" ++ "-GENERIC-" ++ pad 0) ∈ tbl1 ∧
      (∀ e ∈ ([] : List String), e ∈ tbl1) ∧
      (ops1.filter NicOp.isCreation).length ≤
        (([] : List NicOp).filter NicOp.isCreation).length + 1) :=
  ⟨rfl, by decide,
    c7_generic_resolution_once [("generic-networks", [("lan", ⟨none, none⟩)])]
      (fun _ => false) "vs0" [] [] "lan" 0 rfl (by decide)⟩

end Adles

namespace Adles

/-- The adding branch appends exactly d NICs and leaves the first
length - d declared names in the aliased list. -/
theorem add_loop_len (tools : Bool) :
    ∀ (d : Nat) (nics : List Nic) (nets : List String), d ≤ nets.length →
      (add_loop tools d nics nets).1.length = nics.length + d ∧
      (add_loop tools d nics nets).2.1 = nets.take (nets.length - d) := by
  intro d
  induction d with
  | zero =>
    intro nics nets _
    exact ⟨rfl, by simp [add_loop]⟩
  | succ d ih =>
    intro nics nets hd
    have hne : nets ≠ [] := by
      intro h; subst h; simp at hd
    have hlast := List.getLast?_eq_getLast nets hne
    obtain ⟨ih1, ih2⟩ := ih (nics ++ [⟨nets.getLast hne, nets.getLast hne⟩])
      nets.dropLast (by rw [List.length_dropLast]; omega)
    constructor
    · simp only [add_loop, hlast, ih1, List.length_append]
      simp
      omega
    · simp only [add_loop, hlast, ih2]
      rw [List.length_dropLast, List.dropLast_eq_take, List.take_take]
      congr 1
      omega

/-- Soundness of the NIC edit walk: with every declared name resolvable and
enough NIC slots, the walk succeeds, preserves the NIC count, leaves slots
before the start untouched, and leaves every walked slot backed by its
resolved network. -/
theorem edit_loop_sound (netcat : NetCatalog) (sx : String → Bool)
    (vsw : String) (io : Option Int) :
    ∀ (nets : List String) (k : Nat) (nics : List Nic) (tbl : List String)
      (ops : List NicOp),
      (∀ nm ∈ nets, ∃ r, resolve_net_name netcat io nm = .ok r) →
      k + nets.length ≤ nics.length →
      ∃ nics1 tbl1 ops1,
        edit_loop netcat sx vsw io nets k nics tbl ops =
          .ok (nics1, tbl1, ops1) ∧
        nics1.length = nics.length ∧
        (∀ m, m < k → nics1.get? m = nics.get? m) ∧
        (∀ j, j < nets.length → ∃ nm r, nets.get? j = some nm ∧
          resolve_net_name netcat io nm = .ok r ∧
          (nics1.get? (k + j)).map Nic.backing = some r) := by
  intro nets
  induction nets with
  | nil =>
    intro k nics tbl ops _ _
    exact ⟨nics, tbl, ops, rfl, rfl, fun m _ => rfl,
      fun j hj => absurd hj (by simp)⟩
  | cons net_name rest ih =>
    intro k nics tbl ops hres hlen
    obtain ⟨r, hr⟩ := hres net_name (by simp)
    obtain ⟨tbl1, ops1, hstep, _, _⟩ :=
      resolve_step_ok netcat sx vsw io tbl ops net_name r hr
    have hlen1 : k + 1 + rest.length ≤ nics.length := by
      simp only [List.length_cons] at hlen; omega
    have hk : k < nics.length := by omega
    cases hnic : nics.get? k with
    | none =>
      have := List.get?_eq_none.mp hnic
      omega
    | some nic =>
      by_cases hb : nic.backing = r
      · obtain ⟨nics1, tbl2, ops2, hrun, hlen2, hframe, hprop⟩ :=
          ih (k + 1) nics tbl1 ops1
            (fun nm hnm => hres nm (by simp [hnm])) (by omega)
        refine ⟨nics1, tbl2, ops2, ?_, hlen2, ?_, ?_⟩
        · simp only [edit_loop, hstep, hnic]
          rw [if_pos hb]
          exact hrun
        · exact fun m hm => hframe m (by omega)
        · intro j hj
          cases j with
          | zero =>
            refine ⟨net_name, r, rfl, hr, ?_⟩
            rw [Nat.add_zero, hframe k (by omega), hnic]
            simp [hb]
          | succ j =>
            obtain ⟨nm2, r2, h1, h2, h3⟩ := hprop j
              (by simp only [List.length_cons] at hj; omega)
            refine ⟨nm2, r2, by simpa using h1, h2, ?_⟩
            rw [show k + (j + 1) = k + 1 + j by omega]
            exact h3
      · obtain ⟨nics1, tbl2, ops2, hrun, hlen2, hframe, hprop⟩ :=
          ih (k + 1) (nics.set k ⟨r, r⟩) tbl1
            (ops1 ++ [NicOp.editNic (k + 1) r r])
            (fun nm hnm => hres nm (by simp [hnm]))
            (by rw [List.length_set]; omega)
        refine ⟨nics1, tbl2, ops2, ?_, ?_, ?_, ?_⟩
        · simp only [edit_loop, hstep, hnic]
          rw [if_neg hb]
          exact hrun
        · rw [hlen2, List.length_set]
        · intro m hm
          rw [hframe m (by omega), List.get?_set_ne _ _ (by omega)]
        · intro j hj
          cases j with
          | zero =>
            refine ⟨net_name, r, rfl, hr, ?_⟩
            rw [Nat.add_zero, hframe k (by omega),
              List.get?_set_eq_of_lt _ (by rw [List.length_set] at *; exact hk)]
            simp
          | succ j =>
            obtain ⟨nm2, r2, h1, h2, h3⟩ := hprop j
              (by simp only [List.length_cons] at hj; omega)
            refine ⟨nm2, r2, by simpa using h1, h2, ?_⟩
            rw [show k + (j + 1) = k + 1 + j by omega]
            exact h3

/-- The reconciler in the NIC-removing branch. -/
theorem configure_nics_del (netcat : NetCatalog) (sx : String → Bool)
    (vsw : String) (tools : Bool) (io : Option Int) (nics0 : List Nic)
    (networks0 : List String) (tbl0 : List String)
    (h : networks0.length < nics0.length) :
    configure_nics netcat sx vsw tools io nics0 networks0 tbl0 =
      match edit_loop netcat sx vsw io networks0 0
          (nics0.take networks0.length) tbl0
          (((List.range nics0.length).reverse.take
            (nics0.length - networks0.length)).map NicOp.deleteNic) with
      | .error e => .error e
      | .ok (nics2, tbl2, ops2) => .ok ⟨nics2, networks0, tbl2, ops2⟩ := by
  simp only [configure_nics]
  rw [if_pos h]

/-- The reconciler in the NIC-adding branch. -/
theorem configure_nics_add (netcat : NetCatalog) (sx : String → Bool)
    (vsw : String) (tools : Bool) (io : Option Int) (nics0 : List Nic)
    (networks0 : List String) (tbl0 : List String)
    (h : nics0.length < networks0.length) :
    configure_nics netcat sx vsw tools io nics0 networks0 tbl0 =
      match edit_loop netcat sx vsw io
          (add_loop tools (networks0.length - nics0.length) nics0
            networks0).2.1 0
          (add_loop tools (networks0.length - nics0.length) nics0 networks0).1
          tbl0
          (add_loop tools (networks0.length - nics0.length) nics0
            networks0).2.2 with
      | .error e => .error e
      | .ok (nics2, tbl2, ops2) =>
        .ok ⟨nics2,
          (add_loop tools (networks0.length - nics0.length) nics0
            networks0).2.1, tbl2, ops2⟩ := by
  simp only [configure_nics]
  rw [if_neg (by omega : ¬ networks0.length < nics0.length), if_pos h]

end Adles

namespace Adles

/-- Claim C6 amended: after count reconciliation the edit walk covers the
NIC slots of the networks remaining in the (aliased, possibly shrunk) declared
list - all of them when NICs were removed or counts matched, only the first
current-count slots when NICs were added, since the adds consumed names off
the end of the list. Each walked slot ends backed by its resolved network,
matching slots untouched and mismatched ones edited; the NIC count ends equal
to the original declared count. -/
theorem c6_walk_covers_remaining_slots (netcat : NetCatalog)
    (sx : String → Bool) (vsw : String) (tools : Bool) (io : Option Int)
    (nics0 : List Nic) (networks0 : List String) (tbl0 : List String)
    (hres : ∀ nm ∈ networks0, ∃ r, resolve_net_name netcat io nm = .ok r) :
    ∃ st, configure_nics netcat sx vsw tools io nics0 networks0 tbl0 =
        .ok st ∧
      st.nics.length = networks0.length ∧
      st.networks = (if nics0.length < networks0.length then
        networks0.take nics0.length else networks0) ∧
      ∀ j, j < st.networks.length → ∃ nm r, st.networks.get? j = some nm ∧
        resolve_net_name netcat io nm = .ok r ∧
        (st.nics.get? j).map Nic.backing = some r := by
  by_cases h1 : networks0.length < nics0.length
  · obtain ⟨nics1, tbl1, ops1, hrun, hlen1, _, hprop⟩ :=
      edit_loop_sound netcat sx vsw io networks0 0
        (nics0.take networks0.length) tbl0
        (((List.range nics0.length).reverse.take
          (nics0.length - networks0.length)).map NicOp.deleteNic)
        hres (by rw [List.length_take]; omega)
    refine ⟨⟨nics1, networks0, tbl1, ops1⟩, ?_, ?_, ?_, ?_⟩
    · rw [configure_nics_del netcat sx vsw tools io nics0 networks0 tbl0 h1,
        hrun]
    · show nics1.length = networks0.length
      rw [hlen1, List.length_take]
      omega
    · show networks0 = (if nics0.length < networks0.length then
        networks0.take nics0.length else networks0)
      rw [if_neg (by omega)]
    · intro j hj
      obtain ⟨nm, r, ha, hb, hc⟩ := hprop j hj
      exact ⟨nm, r, ha, hb, by simpa using hc⟩
  · by_cases h2 : nics0.length < networks0.length
    · obtain ⟨ha1, ha2⟩ := add_loop_len tools
        (networks0.length - nics0.length) nics0 networks0 (by omega)
      have ha2t : (add_loop tools (networks0.length - nics0.length) nics0
          networks0).2.1 = networks0.take nics0.length := by
        rw [ha2]
        congr 1
        omega
      obtain ⟨nics1, tbl1, ops1, hrun, hlen1, _, hprop⟩ :=
        edit_loop_sound netcat sx vsw io
          (add_loop tools (networks0.length - nics0.length) nics0
            networks0).2.1 0
          (add_loop tools (networks0.length - nics0.length) nics0 networks0).1
          tbl0
          (add_loop tools (networks0.length - nics0.length) nics0
            networks0).2.2
          (fun nm hnm => hres nm (List.take_subset _ _ (ha2t ▸ hnm)))
          (by simp only [ha2t, ha1, List.length_take]; omega)
      refine ⟨⟨nics1,
        (add_loop tools (networks0.length - nics0.length) nics0
          networks0).2.1, tbl1, ops1⟩, ?_, ?_, ?_, ?_⟩
      · rw [configure_nics_add netcat sx vsw tools io nics0 networks0 tbl0 h2,
          hrun]
      · show nics1.length = networks0.length
        rw [hlen1, ha1]
        omega
      · show (add_loop tools (networks0.length - nics0.length) nics0
            networks0).2.1 = (if nics0.length < networks0.length then
          networks0.take nics0.length else networks0)
        rw [if_pos h2, ha2t]
      · intro j hj
        obtain ⟨nm, r, ha, hb, hc⟩ := hprop j hj
        exact ⟨nm, r, ha, hb, by simpa using hc⟩
    · obtain ⟨nics1, tbl1, ops1, hrun, hlen1, _, hprop⟩ :=
        edit_loop_sound netcat sx vsw io networks0 0 nics0 tbl0 [] hres
          (by omega)
      refine ⟨⟨nics1, networks0, tbl1, ops1⟩, ?_, ?_, ?_, ?_⟩
      · rw [configure_nics_eq_len netcat sx vsw tools io nics0 networks0 tbl0
          (by omega), hrun]
      · show nics1.length = networks0.length
        rw [hlen1]
        omega
      · show networks0 = (if nics0.length < networks0.length then
          networks0.take nics0.length else networks0)
        rw [if_neg (by omega)]
      · intro j hj
        obtain ⟨nm, r, ha, hb, hc⟩ := hprop j hj
        exact ⟨nm, r, ha, hb, by simpa using hc⟩

/-- Claim C6 amended witness: a one-NIC VM with a mismatched backing against
one declared network, reconciled without an instance. -/
theorem c6_walk_witness :
    (∀ nm ∈ (["u"] : List String), ∃ r,
      resolve_net_name [] none nm = .ok r) ∧
    (∃ st, configure_nics [] (fun _ => false) "vs0" false none
        [⟨"u", "x"⟩] ["u"] [] = .ok st ∧
      st.nics.length = (["u"] : List String).length ∧
      st.networks = (if ([⟨"u", "x"⟩] : List Nic).length <
          (["u"] : List String).length then
        (["u"] : List String).take ([⟨"u", "x"⟩] : List Nic).length
        else ["u"]) ∧
      ∀ j, j < st.networks.length → ∃ nm r, st.networks.get? j = some nm ∧
        resolve_net_name [] none nm = .ok r ∧
        (st.nics.get? j).map Nic.backing = some r) :=
  ⟨fun nm _ => ⟨nm, rfl⟩,
   c6_walk_covers_remaining_slots [] (fun _ => false) "vs0" false none
     [⟨"u", "x"⟩] ["u"] [] (fun nm _ => ⟨nm, rfl⟩)⟩

end Adles

namespace Adles

/-- Flattening singleton traces is mapping. -/
theorem flatMap_single {α β : Type} (xs : List α) (g : α → β) :
    xs.flatMap (fun x => [g x]) = xs.map g := by
  induction xs with
  | nil => rfl
  | cons x xs ih => simp [List.flatMap_cons, ih]

/-- Claim C4 amended: in the Deployment parent walk the number of instance
folders generated for a child is the count resolved from the instance
directive of the enclosing node itself - the spec argument handed to the
handler at source line 460 - whatever directive the child carries; the child
directive is only consulted later, inside the base-folder generator. -/
theorem c4_count_from_parent_directive (catalog : Services)
    (mex vmf : String → Bool) (pd cd : Option InstanceDirective)
    (sub_name parent p : String) (n : Int) (pfx : String)
    (h : instances_handler pd .folder = .ok (n, pfx)) :
    ∃ ops, deploy_parent_folder_gen catalog mex vmf 2
        (.node none pd [(sub_name, .node none cd [] none)] none) parent p =
      .ok ops ∧
      ops.length = n.toNat ∧
      ∀ op ∈ ops, ∃ nm, op = DOp.createFolder nm parent := by
  have hstep : ∀ (q1 q2 : String), deploy_parent_folder_gen catalog mex vmf 1
      (FolderSpec.node none cd [] none) q1 q2 = .ok [] := fun _ _ => rfl
  refine ⟨(List.range n.toNat).map (fun (i : Nat) =>
      DOp.createFolder ((if pfx = "" ∨ n = 1 then sub_name else pfx) ++
        (if 1 < n then pad i else "")) parent), ?_, by simp, ?_⟩
  · simp only [deploy_parent_folder_gen, FolderSpec.enabled,
      FolderSpec.children, FolderSpec.instances, FolderSpec.services, h,
      is_enabled, Option.getD_none, if_true, exceptFlat, hstep]
    rw [exceptFlat_ok]
    simp [flatMap_single]
  · intro op hop
    simp only [List.mem_map] at hop
    obtain ⟨i, _, rfl⟩ := hop
    exact ⟨_, rfl⟩

/-- Claim C4 amended witness: parent directive count 2, child directive count
3, producing two instance folders. -/
theorem c4_count_from_parent_directive_witness :
    instances_handler (some (.intLit 2)) .folder = .ok (2, "") ∧
    (∃ ops, deploy_parent_folder_gen [] (fun _ => true) (fun _ => true) 2
        (.node none (some (.intLit 2))
          [("A", .node none (some (.intLit 3)) [] none)] none) "root" "" =
      .ok ops ∧ ops.length = (2 : Int).toNat ∧
      ∀ op ∈ ops, ∃ nm, op = DOp.createFolder nm "root") :=
  ⟨rfl, c4_count_from_parent_directive [] (fun _ => true) (fun _ => true)
    (some (.intLit 2)) (some (.intLit 3)) "A" "root" "" 2 "" rfl⟩

end Adles
